import Mathlib

/-!
Verification of the QuantumDrop / Syspec Drop envelope-encryption backend.

The development shallowly embeds the cryptographic core of the repository:

- the envelope codec (`iv(12) || authTag(16) || ciphertext`) from
  `upload.route.ts` line 168 and the `subarray` slicing in `claim.route.ts`
  lines 97-102 and 126-128;
- the passphrase generator from `upload.route.ts` lines 47-68;
- the keccak-256 KEK derivation and passphrase hash from `upload.route.ts`
  lines 111-114 and 151-153;
- the AES-256-GCM encrypt/decrypt pipeline of both routes, with the cipher
  modelled as a parametric CTR keystream plus tag oracle (the library
  primitive is external to the repository; the model keeps exactly the
  structure the routes rely on: length-preserving XOR encryption, a tag that
  is a function of key, IV and ciphertext, and node's tag-verification and
  input-validation error behavior);
- the chunked base64 codec from `src/lib/encryption.ts` lines 114-142.

Byte buffers are `List Nat` with entries below 256.
-/

namespace QuantumDrop

/-! ### Hex encoding, as in noble `bytesToHex` (lowercase, two digits per byte) -/

def hexDigits : List Char :=
  (List.range 16).map (fun n => if n < 10 then Char.ofNat (48 + n) else Char.ofNat (87 + n))

def hexDigit (n : Nat) : Char := hexDigits.getD n '0'

def byteToHex (b : Nat) : List Char := [hexDigit (b / 16), hexDigit (b % 16)]

def bytesToHexAux : List Nat → List Char
  | [] => []
  | b :: bs => byteToHex b ++ bytesToHexAux bs

def bytesToHex (bs : List Nat) : String := String.mk (bytesToHexAux bs)

def hexVal (c : Char) : Nat := hexDigits.indexOf c

def hexPairsToBytes : List Char → List Nat
  | c1 :: c2 :: rest => (hexVal c1 * 16 + hexVal c2) :: hexPairsToBytes rest
  | _ => []

def hexToBytes (s : String) : List Nat := hexPairsToBytes s.data

set_option maxRecDepth 4000 in
lemma hex_byte_roundtrip :
    ∀ b : Nat, b < 256 → hexVal (hexDigit (b / 16)) * 16 + hexVal (hexDigit (b % 16)) = b := by
  decide

lemma hexToBytes_bytesToHex (bs : List Nat) (h : ∀ b ∈ bs, b < 256) :
    hexToBytes (bytesToHex bs) = bs := by
  induction bs with
  | nil => rfl
  | cons b t ih =>
    have hb : b < 256 := h b (by simp)
    have ht : ∀ x ∈ t, x < 256 := fun x hx => h x (by simp [hx])
    show hexPairsToBytes (byteToHex b ++ bytesToHexAux t) = b :: t
    show (hexVal (hexDigit (b / 16)) * 16 + hexVal (hexDigit (b % 16)))
        :: hexPairsToBytes (bytesToHexAux t) = b :: t
    rw [hex_byte_roundtrip b hb]
    exact congrArg (b :: ·) (ih ht)

lemma bytesToHex_injOn (a b : List Nat) (ha : ∀ x ∈ a, x < 256) (hb : ∀ x ∈ b, x < 256)
    (h : bytesToHex a = bytesToHex b) : a = b := by
  rw [← hexToBytes_bytesToHex a ha, ← hexToBytes_bytesToHex b hb, h]

/-! ### Envelope codec

`pack` is the `Buffer.concat([iv, authTag, ciphertext])` of `upload.route.ts`
line 168 (also line 128 for the key envelope); `unpack` is the positional
`subarray(0,12) / subarray(12,28) / subarray(28)` slicing of
`claim.route.ts` lines 100-102 and 126-128.  JavaScript `subarray` clamps
out-of-range indices, so `unpack` is total: it never rejects short input. -/

def packEnvelope (iv authTag ct : List Nat) : List Nat := iv ++ authTag ++ ct

def unpackEnvelope (b : List Nat) : List Nat × List Nat × List Nat :=
  (b.take 12, (b.drop 12).take 16, b.drop 28)

lemma unpackEnvelope_packEnvelope (iv authTag ct : List Nat)
    (hiv : iv.length = 12) (htag : authTag.length = 16) :
    unpackEnvelope (packEnvelope iv authTag ct) = (iv, authTag, ct) := by
  unfold unpackEnvelope packEnvelope
  rw [List.append_assoc]
  have h2 : (iv ++ (authTag ++ ct)).drop 12 = authTag ++ ct := by
    rw [← hiv, List.drop_left]
  have h3 : (iv ++ (authTag ++ ct)).drop 28 = ct := by
    rw [show (28 : Nat) = 12 + 16 by norm_num, ← List.drop_drop, h2, ← htag, List.drop_left]
  have h1 : (iv ++ (authTag ++ ct)).take 12 = iv := by
    rw [← hiv, List.take_left]
  have h4 : (authTag ++ ct).take 16 = authTag := by
    rw [← htag, List.take_left]
  rw [h1, h2, h3, h4]

/-! ### Passphrase generator (`upload.route.ts` lines 47-68)

The source draws one byte per word with `randomBytes(1)[0]`, reduces it with
`byte % words.length`, and silently skips the word when the array lookup is
`undefined`.  The six random bytes are made explicit as the `bytes`
argument. -/

def words : List String :=
  ["quantum", "secure", "drop", "anonymous", "encrypted", "blockdag",
   "whistle", "blow", "safe", "data", "privacy", "freedom",
   "crypto", "shield", "guardian", "vault", "lock", "key"]

def wordIndexOf (byte : Nat) : Nat := byte % words.length

def passphraseWords (bytes : List Nat) : List String :=
  bytes.filterMap (fun b => words.get? (wordIndexOf b))

def generatePassphrase (bytes : List Nat) : String :=
  String.intercalate "-" (passphraseWords bytes)

lemma words_length : words.length = 18 := rfl

lemma wordIndexOf_lt (b : Nat) : wordIndexOf b < 18 :=
  Nat.mod_lt _ (by decide)

lemma words_get?_eq : ∀ i : Nat, i < 18 → words.get? i = some (words.getD i "") := by
  decide

lemma passphraseWords_cons (b : Nat) (t : List Nat) :
    passphraseWords (b :: t) = words.getD (wordIndexOf b) "" :: passphraseWords t := by
  unfold passphraseWords
  rw [List.filterMap_cons, words_get?_eq _ (wordIndexOf_lt b)]

lemma passphraseWords_length (bytes : List Nat) :
    (passphraseWords bytes).length = bytes.length := by
  induction bytes with
  | nil => rfl
  | cons b t ih => rw [passphraseWords_cons]; simp [ih]

lemma passphraseWords_mem (bytes : List Nat) :
    ∀ w ∈ passphraseWords bytes, w ∈ words := by
  induction bytes with
  | nil => intro w hw; cases hw
  | cons b t ih =>
    intro w hw
    rw [passphraseWords_cons] at hw
    rcases List.mem_cons.mp hw with hw | hw
    · rw [hw, List.getD_eq_getElem _ _ (by rw [words_length]; exact wordIndexOf_lt b)]
      exact List.getElem_mem _
    · exact ih w hw

def indexTuples : Finset (Nat × Nat × Nat × Nat × Nat × Nat) :=
  Finset.range 18 ×ˢ Finset.range 18 ×ˢ Finset.range 18 ×ˢ
    Finset.range 18 ×ˢ Finset.range 18 ×ˢ Finset.range 18

def joinSix : Nat × Nat × Nat × Nat × Nat × Nat → String
  | (i1, i2, i3, i4, i5, i6) =>
    String.intercalate "-" [words.getD i1 "", words.getD i2 "", words.getD i3 "",
      words.getD i4 "", words.getD i5 "", words.getD i6 ""]

def passphraseSpace : Finset String := indexTuples.image joinSix

lemma passphraseSpace_card_le : passphraseSpace.card ≤ 18 ^ 6 := by
  calc passphraseSpace.card ≤ indexTuples.card := Finset.card_image_le
    _ ≤ 18 ^ 6 := by
        simp [indexTuples, Finset.card_product]

lemma passphraseWords_six (b0 b1 b2 b3 b4 b5 : Nat) :
    passphraseWords [b0, b1, b2, b3, b4, b5] =
      [words.getD (wordIndexOf b0) "", words.getD (wordIndexOf b1) "",
       words.getD (wordIndexOf b2) "", words.getD (wordIndexOf b3) "",
       words.getD (wordIndexOf b4) "", words.getD (wordIndexOf b5) ""] := by
  rw [passphraseWords_cons, passphraseWords_cons, passphraseWords_cons,
    passphraseWords_cons, passphraseWords_cons, passphraseWords_cons]
  rfl

lemma generatePassphrase_mem_space (bytes : List Nat) (h : bytes.length = 6) :
    generatePassphrase bytes ∈ passphraseSpace := by
  rcases bytes with _ | ⟨b0, _ | ⟨b1, _ | ⟨b2, _ | ⟨b3, _ | ⟨b4, _ | ⟨b5, rest⟩⟩⟩⟩⟩⟩ <;>
    simp at h
  subst h
  refine Finset.mem_image.mpr
    ⟨(wordIndexOf b0, wordIndexOf b1, wordIndexOf b2,
      wordIndexOf b3, wordIndexOf b4, wordIndexOf b5), ?_, ?_⟩
  · simp [indexTuples, Finset.mem_product, Finset.mem_range]
    exact ⟨wordIndexOf_lt b0, wordIndexOf_lt b1, wordIndexOf_lt b2,
      wordIndexOf_lt b3, wordIndexOf_lt b4, wordIndexOf_lt b5⟩
  · rw [joinSix, generatePassphrase, passphraseWords_six]

/-- Claim C7: packing an envelope is exactly the concatenation
`nonce(12) || authTag(16) || ciphertext` (the ciphertext occupying
bytes 28 to the end), and unpacking the packed buffer returns the
original triple for any 12-byte nonce, 16-byte tag and ciphertext of
any length. -/
theorem pack_unpack_roundtrip (iv authTag ct : List Nat)
    (hiv : iv.length = 12) (htag : authTag.length = 16) :
    packEnvelope iv authTag ct = iv ++ authTag ++ ct ∧
    unpackEnvelope (packEnvelope iv authTag ct) = (iv, authTag, ct) :=
  ⟨rfl, unpackEnvelope_packEnvelope iv authTag ct hiv htag⟩

/-- Witness for claim C7 at a concrete nonce, tag and two-byte ciphertext. -/
theorem pack_unpack_roundtrip_witness :
    (List.replicate 12 0).length = 12 ∧ (List.replicate 16 1).length = 16 ∧
    (packEnvelope (List.replicate 12 0) (List.replicate 16 1) [9, 8] =
        List.replicate 12 0 ++ List.replicate 16 1 ++ [9, 8] ∧
      unpackEnvelope (packEnvelope (List.replicate 12 0) (List.replicate 16 1) [9, 8]) =
        (List.replicate 12 0, List.replicate 16 1, [9, 8])) :=
  ⟨by decide, by decide,
    pack_unpack_roundtrip (List.replicate 12 0) (List.replicate 16 1) [9, 8]
      (by decide) (by decide)⟩

/-- Claim C9: every generated passphrase consists of exactly six words,
each drawn from the fixed hard-coded 18-word list, joined by the dash
delimiter, so the space of generated passphrases has at most `18 ^ 6`
members. -/
theorem generatePassphrase_six_words_of_fixed_list (bytes : List Nat)
    (h : bytes.length = 6) :
    (passphraseWords bytes).length = 6 ∧
    (∀ w ∈ passphraseWords bytes, w ∈ words) ∧
    generatePassphrase bytes = String.intercalate "-" (passphraseWords bytes) ∧
    generatePassphrase bytes ∈ passphraseSpace ∧
    passphraseSpace.card ≤ 18 ^ 6 :=
  ⟨by rw [passphraseWords_length, h], passphraseWords_mem bytes, rfl,
    generatePassphrase_mem_space bytes h, passphraseSpace_card_le⟩

/-- Witness for claim C9 on the concrete byte draw `[0, 1, 2, 3, 4, 5]`. -/
theorem generatePassphrase_six_words_witness :
    ([0, 1, 2, 3, 4, 5] : List Nat).length = 6 ∧
    ((passphraseWords [0, 1, 2, 3, 4, 5]).length = 6 ∧
      (∀ w ∈ passphraseWords [0, 1, 2, 3, 4, 5], w ∈ words) ∧
      generatePassphrase [0, 1, 2, 3, 4, 5] =
        String.intercalate "-" (passphraseWords [0, 1, 2, 3, 4, 5]) ∧
      generatePassphrase [0, 1, 2, 3, 4, 5] ∈ passphraseSpace ∧
      passphraseSpace.card ≤ 18 ^ 6) :=
  ⟨by decide, generatePassphrase_six_words_of_fixed_list [0, 1, 2, 3, 4, 5] (by decide)⟩

/-- Claim C8 counterexample: the word index is `byte % 18` of a uniform
byte, and the 256 byte values do not split evenly over the 18 words:
15 byte values select word 0 but only 14 select word 17, so the list
entries are not equally likely (modulo bias). -/
theorem wordIndexOf_not_uniform :
    ((Finset.range 256).filter (fun b => wordIndexOf b = 0)).card = 15 ∧
    ((Finset.range 256).filter (fun b => wordIndexOf b = 17)).card = 14 := by
  decide

/-- Claim C8 amended: each pick reduces a uniform random byte with
`byte % 18`, giving the biased distribution 15/256 for indices 0-3 and
14/256 for indices 4-17; the word lookup always succeeds (the index is
always below the list length), so the silent-skip branch is unreachable
and the generator always emits one word per draw. -/
theorem generatePassphrase_bias_and_total_lookup :
    (∀ i : Nat, i < 18 →
      ((Finset.range 256).filter (fun b => wordIndexOf b = i)).card
        = if i < 4 then 15 else 14) ∧
    (∀ b : Nat, (words.get? (wordIndexOf b)).isSome) ∧
    (∀ bytes : List Nat, (passphraseWords bytes).length = bytes.length) := by
  refine ⟨by decide, ?_, passphraseWords_length⟩
  intro b
  rw [words_get?_eq _ (wordIndexOf_lt b)]
  rfl

/-- Witness for the amended claim C8 at index 3 (the last over-weighted word). -/
theorem generatePassphrase_bias_witness :
    ((Finset.range 256).filter (fun b => wordIndexOf b = 3)).card
      = if (3 : Nat) < 4 then 15 else 14 :=
  generatePassphrase_bias_and_total_lookup.1 3 (by decide)

/-- Claim C4 counterexample: a 10-byte buffer is shorter than the 28-byte
minimum, yet unpacking does not fail: the `subarray` slicing clamps, so
the envelope splits into a 10-byte nonce, an empty tag and an empty
ciphertext instead of raising any MalformedEnvelope error. -/
theorem unpackEnvelope_short_input_total :
    unpackEnvelope (List.replicate 10 3) = (List.replicate 10 3, [], []) := by
  decide

/-! ### AES-256-GCM model

The cipher itself is a library primitive (`node:crypto`), external to the
repository, so it is modelled parametrically: `ks` is the CTR keystream
(a byte per position, a function of key and IV), `tagF` the authentication
tag (a function of key, IV and ciphertext).  Encryption XORs the keystream
onto the plaintext (length-preserving); decryption re-derives the keystream
and recomputes the tag.  `gcmDecrypt` reproduces node's observable error
behavior: `createDecipheriv` rejects a key that is not 32 bytes and an
empty IV, `setAuthTag` rejects tag lengths outside 16/15/14/13/12/8/4, and
`final()` throws when the supplied tag does not match the recomputed tag
(truncated to the supplied length); no plaintext is surfaced on failure. -/

inductive CryptoError
  | invalidKeyLength
  | invalidIV
  | invalidTagLength
  | authFailure
deriving DecidableEq

def ctrXor (ks : List Nat → List Nat → Nat → Nat) (key iv pt : List Nat) : List Nat :=
  List.zipWith (· ^^^ ·) pt ((List.range pt.length).map (ks key iv))

def gcmTagLengthOk (n : Nat) : Bool :=
  n = 16 || n = 15 || n = 14 || n = 13 || n = 12 || n = 8 || n = 4

def gcmDecrypt (ks : List Nat → List Nat → Nat → Nat)
    (tagF : List Nat → List Nat → List Nat → List Nat)
    (key iv ct providedTag : List Nat) : Except CryptoError (List Nat) :=
  if key.length ≠ 32 then .error .invalidKeyLength
  else if iv.length = 0 then .error .invalidIV
  else if gcmTagLengthOk providedTag.length then
    if providedTag = (tagF key iv ct).take providedTag.length then
      .ok (ctrXor ks key iv ct)
    else .error .authFailure
  else .error .invalidTagLength

/-! ### The drop protocol (`upload.route.ts` and `claim.route.ts`)

Randomness (`randomBytes`) is made explicit: the file key and the two IVs
are arguments.  Passphrases enter as their UTF-8 byte sequences.  The
base64 transport of the key envelope (`combined.toString('base64')` on
upload, `Buffer.from(encryptedSymKey, 'base64')` on claim) is a bijection
on byte buffers and is modelled as the identity: envelopes travel as raw
bytes. -/

def deriveKEK (keccak : List Nat → List Nat) (passphrase : List Nat) : List Nat :=
  keccak passphrase

def passphraseCommitment (keccak : List Nat → List Nat) (passphrase : List Nat) : String :=
  bytesToHex (keccak passphrase)

def encryptedFileBytes (ks : List Nat → List Nat → Nat → Nat)
    (tagF : List Nat → List Nat → List Nat → List Nat)
    (key iv pt : List Nat) : List Nat :=
  packEnvelope iv (tagF key iv (ctrXor ks key iv pt)) (ctrXor ks key iv pt)

def encryptSymmetricKey (ks : List Nat → List Nat → Nat → Nat)
    (tagF : List Nat → List Nat → List Nat → List Nat)
    (keccak : List Nat → List Nat)
    (symmetricKey passphrase iv : List Nat) : List Nat :=
  packEnvelope iv
    (tagF (deriveKEK keccak passphrase) iv (ctrXor ks (deriveKEK keccak passphrase) iv symmetricKey))
    (ctrXor ks (deriveKEK keccak passphrase) iv symmetricKey)

def decryptSymmetricKey (ks : List Nat → List Nat → Nat → Nat)
    (tagF : List Nat → List Nat → List Nat → List Nat)
    (keccak : List Nat → List Nat)
    (encryptedSymKey passphrase : List Nat) : Except CryptoError (List Nat) :=
  gcmDecrypt ks tagF (deriveKEK keccak passphrase)
    (encryptedSymKey.take 12) (encryptedSymKey.drop 28) ((encryptedSymKey.drop 12).take 16)

def decryptFile (ks : List Nat → List Nat → Nat → Nat)
    (tagF : List Nat → List Nat → List Nat → List Nat)
    (encryptedFile symmetricKey : List Nat) : Except CryptoError (List Nat) :=
  gcmDecrypt ks tagF symmetricKey
    (encryptedFile.take 12) (encryptedFile.drop 28) ((encryptedFile.drop 12).take 16)

structure DropRecord where
  storedFile : List Nat
  encryptedSymKey : List Nat
  passphraseHash : String
  isActive : Bool

inductive ClaimCode
  | INVALID_PASSPHRASE
  | DROP_NOT_FOUND
  | DROP_INACTIVE
  | KEY_NOT_AVAILABLE
  | CLAIM_ERROR
deriving DecidableEq

def createDrop (ks : List Nat → List Nat → Nat → Nat)
    (tagF : List Nat → List Nat → List Nat → List Nat)
    (keccak : List Nat → List Nat)
    (key iv1 iv2 plaintext passphrase : List Nat) : DropRecord :=
  { storedFile := encryptedFileBytes ks tagF key iv1 plaintext
    encryptedSymKey := encryptSymmetricKey ks tagF keccak key passphrase iv2
    passphraseHash := passphraseCommitment keccak passphrase
    isActive := true }

/-- The ledger claim step, embedding `BlockDAGService.claimDrop` (the
`BlockDAGService` class is staged as the second concatenated document
inside `ipfs.service.ts`, lines 368-469; `claim.route.ts` imports exactly
this class): a failing `getDrop` yields the error 'Drop does not exist',
an inactive drop yields 'Drop is not active', and a contract revert whose
reason contains 'Invalid passphrase' — produced by the on-chain
`require(drops[dropId].passphraseHash == passphraseHash, "Invalid
passphrase")`, the one genuinely off-repository piece, quoted verbatim in
`plugins/support.js` — yields 'Invalid passphrase'; otherwise the drop's
stored data is returned.  The route maps those error strings to
DROP_NOT_FOUND, DROP_INACTIVE and INVALID_PASSPHRASE
(`claim.route.ts` lines 195-217). -/
def claimDropLedger (record : Option DropRecord) (passphraseHash : String) :
    Except ClaimCode DropRecord :=
  match record with
  | none => .error .DROP_NOT_FOUND
  | some r =>
    if r.isActive = false then .error .DROP_INACTIVE
    else if r.passphraseHash ≠ passphraseHash then .error .INVALID_PASSPHRASE
    else .ok r

/-- The POST `/api/claim` handler (`claim.route.ts` lines 158-304): hash
the passphrase, claim the record on the ledger, reject an empty stored key
envelope, unwrap the file key, decrypt the file.  Any error thrown by the
two decryption steps is caught by the catch-all handler (lines 294-302),
which reports the single generic code CLAIM_ERROR. -/
def claimPipeline (ks : List Nat → List Nat → Nat → Nat)
    (tagF : List Nat → List Nat → List Nat → List Nat)
    (keccak : List Nat → List Nat)
    (record : Option DropRecord) (passphrase : List Nat) : Except ClaimCode (List Nat) :=
  match claimDropLedger record (passphraseCommitment keccak passphrase) with
  | .error e => .error e
  | .ok r =>
    if r.encryptedSymKey.length = 0 then .error .KEY_NOT_AVAILABLE
    else
      match decryptSymmetricKey ks tagF keccak r.encryptedSymKey passphrase with
      | .error _ => .error .CLAIM_ERROR
      | .ok symmetricKey =>
        match decryptFile ks tagF r.storedFile symmetricKey with
        | .error _ => .error .CLAIM_ERROR
        | .ok plaintext => .ok plaintext

lemma ctrXor_length (ks : List Nat → List Nat → Nat → Nat) (key iv pt : List Nat) :
    (ctrXor ks key iv pt).length = pt.length := by
  simp [ctrXor]

lemma zipWith_xor_cancel :
    ∀ (pt l : List Nat), l.length = pt.length →
      List.zipWith (· ^^^ ·) (List.zipWith (· ^^^ ·) pt l) l = pt := by
  intro pt
  induction pt with
  | nil => intro l _; simp
  | cons a t ih =>
    intro l h
    cases l with
    | nil => simp at h
    | cons b lt =>
      simp only [List.zipWith]
      rw [Nat.xor_assoc, Nat.xor_self, Nat.xor_zero]
      exact congrArg (a :: ·) (ih lt (by simpa using h))

lemma ctrXor_ctrXor (ks : List Nat → List Nat → Nat → Nat) (key iv pt : List Nat) :
    ctrXor ks key iv (ctrXor ks key iv pt) = pt := by
  show List.zipWith (· ^^^ ·) (ctrXor ks key iv pt)
      ((List.range (ctrXor ks key iv pt).length).map (ks key iv)) = pt
  rw [ctrXor_length]
  exact zipWith_xor_cancel pt _ (by simp)

lemma packEnvelope_take12 (iv authTag ct : List Nat) (hiv : iv.length = 12) :
    (packEnvelope iv authTag ct).take 12 = iv := by
  unfold packEnvelope
  rw [List.append_assoc, ← hiv, List.take_left]

lemma packEnvelope_drop12 (iv authTag ct : List Nat) (hiv : iv.length = 12) :
    (packEnvelope iv authTag ct).drop 12 = authTag ++ ct := by
  unfold packEnvelope
  rw [List.append_assoc, ← hiv, List.drop_left]

lemma packEnvelope_tagSlice (iv authTag ct : List Nat)
    (hiv : iv.length = 12) (htag : authTag.length = 16) :
    ((packEnvelope iv authTag ct).drop 12).take 16 = authTag := by
  rw [packEnvelope_drop12 iv authTag ct hiv, ← htag, List.take_left]

lemma packEnvelope_drop28 (iv authTag ct : List Nat)
    (hiv : iv.length = 12) (htag : authTag.length = 16) :
    (packEnvelope iv authTag ct).drop 28 = ct := by
  rw [show (28 : Nat) = 12 + 16 by norm_num, ← List.drop_drop,
    packEnvelope_drop12 iv authTag ct hiv, ← htag, List.drop_left]

lemma gcmDecrypt_correct (ks : List Nat → List Nat → Nat → Nat)
    (tagF : List Nat → List Nat → List Nat → List Nat)
    (key iv ct : List Nat)
    (hkey : key.length = 32) (hiv : iv.length ≠ 0)
    (htag16 : (tagF key iv ct).length = 16) :
    gcmDecrypt ks tagF key iv ct (tagF key iv ct) = .ok (ctrXor ks key iv ct) := by
  unfold gcmDecrypt
  rw [if_neg (by rw [hkey]; exact fun h => h rfl), if_neg hiv, htag16,
    if_pos (by rw [gcmTagLengthOk]; rfl),
    if_pos (List.take_of_length_le (le_of_eq htag16)).symm]

lemma decryptSymmetricKey_roundtrip (ks : List Nat → List Nat → Nat → Nat)
    (tagF : List Nat → List Nat → List Nat → List Nat)
    (keccak : List Nat → List Nat)
    (key passphrase iv : List Nat)
    (hkek : (keccak passphrase).length = 32) (hiv : iv.length = 12)
    (htag : ∀ k i c, (tagF k i c).length = 16) :
    decryptSymmetricKey ks tagF keccak
      (encryptSymmetricKey ks tagF keccak key passphrase iv) passphrase = .ok key := by
  unfold decryptSymmetricKey encryptSymmetricKey deriveKEK
  rw [packEnvelope_take12 _ _ _ hiv, packEnvelope_tagSlice _ _ _ hiv (htag _ _ _),
    packEnvelope_drop28 _ _ _ hiv (htag _ _ _),
    gcmDecrypt_correct ks tagF _ _ _ hkek (by rw [hiv]; exact Nat.succ_ne_zero _) (htag _ _ _),
    ctrXor_ctrXor]

lemma decryptFile_roundtrip (ks : List Nat → List Nat → Nat → Nat)
    (tagF : List Nat → List Nat → List Nat → List Nat)
    (key iv pt : List Nat)
    (hkey : key.length = 32) (hiv : iv.length = 12)
    (htag : ∀ k i c, (tagF k i c).length = 16) :
    decryptFile ks tagF (encryptedFileBytes ks tagF key iv pt) key = .ok pt := by
  unfold decryptFile encryptedFileBytes
  rw [packEnvelope_take12 _ _ _ hiv, packEnvelope_tagSlice _ _ _ hiv (htag _ _ _),
    packEnvelope_drop28 _ _ _ hiv (htag _ _ _),
    gcmDecrypt_correct ks tagF _ _ _ hkey (by rw [hiv]; exact Nat.succ_ne_zero _) (htag _ _ _),
    ctrXor_ctrXor]

lemma encryptSymmetricKey_ne_nil (ks : List Nat → List Nat → Nat → Nat)
    (tagF : List Nat → List Nat → List Nat → List Nat)
    (keccak : List Nat → List Nat)
    (key passphrase iv : List Nat) (hiv : iv.length = 12) :
    (encryptSymmetricKey ks tagF keccak key passphrase iv).length ≠ 0 := by
  unfold encryptSymmetricKey packEnvelope
  simp
  intro h
  rw [h] at hiv
  simp at hiv

lemma claimPipeline_roundtrip (ks : List Nat → List Nat → Nat → Nat)
    (tagF : List Nat → List Nat → List Nat → List Nat)
    (keccak : List Nat → List Nat)
    (key iv1 iv2 P S : List Nat)
    (hkey : key.length = 32) (hiv1 : iv1.length = 12) (hiv2 : iv2.length = 12)
    (hkek : (keccak S).length = 32)
    (htag : ∀ k i c, (tagF k i c).length = 16) :
    claimPipeline ks tagF keccak (some (createDrop ks tagF keccak key iv1 iv2 P S)) S
      = .ok P := by
  have h1 := decryptSymmetricKey_roundtrip ks tagF keccak key S iv2 hkek hiv2 htag
  have h2 := decryptFile_roundtrip ks tagF key iv1 P hkey hiv1 htag
  have h3 := encryptSymmetricKey_ne_nil ks tagF keccak key S iv2 hiv2
  simp [claimPipeline, claimDropLedger, createDrop, h1, h2, h3]

/-- Claim C1: opening a drop created from plaintext `P` with passphrase `S`
returns exactly `P` (empty plaintext included): the key envelope decrypts
under the keccak-256-derived KEK back to the file key, the file envelope
decrypts under that key back to `P`, and the full claim pipeline returns
`P`.  The file key, the IVs and the keccak digest have the byte lengths
the source produces (32, 12, 12, 32); the GCM tag is 16 bytes. -/
theorem drop_roundtrip (ks : List Nat → List Nat → Nat → Nat)
    (tagF : List Nat → List Nat → List Nat → List Nat)
    (keccak : List Nat → List Nat)
    (key iv1 iv2 P S : List Nat)
    (hkey : key.length = 32) (hiv1 : iv1.length = 12) (hiv2 : iv2.length = 12)
    (hkek : (keccak S).length = 32)
    (htag : ∀ k i c, (tagF k i c).length = 16) :
    decryptSymmetricKey ks tagF keccak
        (encryptSymmetricKey ks tagF keccak key S iv2) S = .ok key ∧
    decryptFile ks tagF (encryptedFileBytes ks tagF key iv1 P) key = .ok P ∧
    claimPipeline ks tagF keccak (some (createDrop ks tagF keccak key iv1 iv2 P S)) S
      = .ok P :=
  ⟨decryptSymmetricKey_roundtrip ks tagF keccak key S iv2 hkek hiv2 htag,
    decryptFile_roundtrip ks tagF key iv1 P hkey hiv1 htag,
    claimPipeline_roundtrip ks tagF keccak key iv1 iv2 P S hkey hiv1 hiv2 hkek htag⟩

/-! ### Concrete instantiations of the cipher and hash parameters

Used by the witnesses and counterexamples below.  They are not claimed to
be cryptographically meaningful; they only make every hypothesis of the
parametric theorems checkable on concrete inputs. -/

def ksDemo (key iv : List Nat) (i : Nat) : Nat :=
  (key.foldl (· + ·) 0 + iv.foldl (· + ·) 0 + i) % 256

def tagDemo (key iv ct : List Nat) : List Nat :=
  ((key.foldl (· + ·) 0 + iv.foldl (· + ·) 0 + ct.foldl (· + ·) 0) % 256)
    :: List.replicate 15 0

def keccakDemo (s : List Nat) : List Nat :=
  (s.foldl (· + ·) 0 % 256) :: (s.length % 256) :: List.replicate 30 0

lemma tagDemo_length : ∀ k i c, (tagDemo k i c).length = 16 := by
  intro k i c
  simp [tagDemo]

/-- Witness for claim C1: a concrete two-byte plaintext round-trips through
the concrete instantiation of the model. -/
theorem drop_roundtrip_witness :
    decryptSymmetricKey ksDemo tagDemo keccakDemo
        (encryptSymmetricKey ksDemo tagDemo keccakDemo
          (List.replicate 32 7) [113] (List.replicate 12 2)) [113]
      = .ok (List.replicate 32 7) ∧
    decryptFile ksDemo tagDemo
        (encryptedFileBytes ksDemo tagDemo (List.replicate 32 7) (List.replicate 12 1) [104, 105])
        (List.replicate 32 7) = .ok [104, 105] ∧
    claimPipeline ksDemo tagDemo keccakDemo
        (some (createDrop ksDemo tagDemo keccakDemo (List.replicate 32 7)
          (List.replicate 12 1) (List.replicate 12 2) [104, 105] [113])) [113]
      = .ok [104, 105] :=
  drop_roundtrip ksDemo tagDemo keccakDemo (List.replicate 32 7)
    (List.replicate 12 1) (List.replicate 12 2) [104, 105] [113]
    (by decide) (by decide) (by decide) (by decide) tagDemo_length

/-- Claim C2: opening a drop created with passphrase `S1` while supplying a
different passphrase `S2` fails with INVALID_PASSPHRASE and returns no
plaintext: the route hashes `S2`, the ledger compares the hash against the
stored commitment and rejects before any decryption is attempted.  The
passphrases are distinct at the only point the code can see: their keccak
digests differ (the digests are byte sequences, as keccak-256 guarantees). -/
theorem wrong_passphrase_rejected (ks : List Nat → List Nat → Nat → Nat)
    (tagF : List Nat → List Nat → List Nat → List Nat)
    (keccak : List Nat → List Nat)
    (key iv1 iv2 P S1 S2 : List Nat)
    (hne : keccak S1 ≠ keccak S2)
    (hb1 : ∀ x ∈ keccak S1, x < 256) (hb2 : ∀ x ∈ keccak S2, x < 256) :
    claimPipeline ks tagF keccak (some (createDrop ks tagF keccak key iv1 iv2 P S1)) S2
      = .error .INVALID_PASSPHRASE := by
  have hhash : passphraseCommitment keccak S1 ≠ passphraseCommitment keccak S2 :=
    fun h => hne (bytesToHex_injOn _ _ hb1 hb2 h)
  simp [claimPipeline, claimDropLedger, createDrop, hhash]

/-- Witness for claim C2 at two concrete passphrases with distinct digests. -/
theorem wrong_passphrase_rejected_witness :
    claimPipeline ksDemo tagDemo keccakDemo
        (some (createDrop ksDemo tagDemo keccakDemo (List.replicate 32 0)
          (List.replicate 12 0) (List.replicate 12 0) [42] [1])) [2]
      = .error .INVALID_PASSPHRASE :=
  wrong_passphrase_rejected ksDemo tagDemo keccakDemo (List.replicate 32 0)
    (List.replicate 12 0) (List.replicate 12 0) [42] [1] [2]
    (by decide) (by decide) (by decide)

/-! ### Single-bit tampering -/

def flipBit (b : List Nat) (i k : Nat) : List Nat :=
  b.set i (b.getD i 0 ^^^ (1 <<< k))

lemma set_ne_of_getElem (l : List Nat) (i x : Nat) (h : i < l.length) (hne : x ≠ l[i]) :
    l.set i x ≠ l := by
  intro heq
  have h2 : (l.set i x).getD i 0 = l.getD i 0 := by rw [heq]
  rw [List.getD_eq_getElem _ _ (by simpa using h), List.getElem_set_self,
    List.getD_eq_getElem _ _ h] at h2
  exact hne h2

lemma xor_shiftLeft_one_ne (a k : Nat) : a ^^^ (1 <<< k) ≠ a := by
  intro h
  have h2 : a ^^^ (a ^^^ (1 <<< k)) = a ^^^ a := congrArg (a ^^^ ·) h
  rw [← Nat.xor_assoc, Nat.xor_self, Nat.zero_xor] at h2
  rw [Nat.shiftLeft_eq, Nat.one_mul] at h2
  exact absurd h2 (Nat.pos_pow_of_pos k (by norm_num)).ne'

lemma flipBit_length (b : List Nat) (i k : Nat) : (flipBit b i k).length = b.length := by
  simp [flipBit]

lemma flipBit_ne (b : List Nat) (i k : Nat) (h : i < b.length) : flipBit b i k ≠ b := by
  refine set_ne_of_getElem b i _ h ?_
  rw [List.getD_eq_getElem _ _ h]
  exact xor_shiftLeft_one_ne _ k

lemma flipBit_packEnvelope_tag (iv authTag ct : List Nat) (i k : Nat)
    (hiv : iv.length = 12) (htag : authTag.length = 16) (h1 : 12 ≤ i) (h2 : i < 28) :
    flipBit (packEnvelope iv authTag ct) i k
      = packEnvelope iv (flipBit authTag (i - 12) k) ct := by
  unfold flipBit packEnvelope
  rw [List.append_assoc]
  have hle : iv.length ≤ i := by omega
  have hlt : i - iv.length < authTag.length := by omega
  rw [List.getD_append_right _ _ _ _ hle, List.getD_append _ _ _ _ hlt,
    List.set_append_right _ _ hle, List.set_append_left _ _ hlt, List.append_assoc]
  rw [hiv]

lemma flipBit_packEnvelope_ct (iv authTag ct : List Nat) (i k : Nat)
    (hiv : iv.length = 12) (htag : authTag.length = 16) (h1 : 28 ≤ i) :
    flipBit (packEnvelope iv authTag ct) i k
      = packEnvelope iv authTag (flipBit ct (i - 28) k) := by
  unfold flipBit packEnvelope
  rw [List.append_assoc]
  have hle : iv.length ≤ i := by omega
  have hle2 : authTag.length ≤ i - iv.length := by omega
  rw [List.getD_append_right _ _ _ _ hle, List.getD_append_right _ _ _ _ hle2,
    List.set_append_right _ _ hle, List.set_append_right _ _ hle2, List.append_assoc]
  rw [hiv, htag, show i - 12 - 16 = i - 28 by omega]

lemma gcmDecrypt_wrong_tag (ks : List Nat → List Nat → Nat → Nat)
    (tagF : List Nat → List Nat → List Nat → List Nat)
    (key iv ct providedTag : List Nat)
    (hkey : key.length = 32) (hiv : iv.length ≠ 0)
    (hlen : providedTag.length = 16)
    (htagF : (tagF key iv ct).length = 16)
    (hne : providedTag ≠ tagF key iv ct) :
    gcmDecrypt ks tagF key iv ct providedTag = .error .authFailure := by
  unfold gcmDecrypt
  rw [if_neg (by rw [hkey]; exact fun h => h rfl), if_neg hiv, hlen,
    if_pos (by rw [gcmTagLengthOk]; rfl),
    if_neg (by rw [List.take_of_length_le (le_of_eq htagF)]; exact hne)]

lemma gcmDecrypt_ok_elim (ks : List Nat → List Nat → Nat → Nat)
    (tagF : List Nat → List Nat → List Nat → List Nat)
    (key iv ct providedTag out : List Nat)
    (h : gcmDecrypt ks tagF key iv ct providedTag = .ok out) :
    out = ctrXor ks key iv ct := by
  unfold gcmDecrypt at h
  split at h
  · exact absurd h (by simp)
  · split at h
    · exact absurd h (by simp)
    · split at h
      · split at h
        · exact (Except.ok.inj h).symm
        · exact absurd h (by simp)
      · exact absurd h (by simp)

lemma decryptFile_tag_tamper (ks : List Nat → List Nat → Nat → Nat)
    (tagF : List Nat → List Nat → List Nat → List Nat)
    (key iv ct tag' : List Nat)
    (hkey : key.length = 32) (hiv : iv.length = 12)
    (hlen : tag'.length = 16) (htagF : (tagF key iv ct).length = 16)
    (hne : tag' ≠ tagF key iv ct) :
    decryptFile ks tagF (packEnvelope iv tag' ct) key = .error .authFailure := by
  unfold decryptFile
  rw [packEnvelope_take12 _ _ _ hiv, packEnvelope_tagSlice _ _ _ hiv hlen,
    packEnvelope_drop28 _ _ _ hiv hlen]
  exact gcmDecrypt_wrong_tag ks tagF key iv ct tag' hkey
    (by rw [hiv]; exact Nat.succ_ne_zero _) hlen htagF hne

lemma decryptFile_ct_tamper (ks : List Nat → List Nat → Nat → Nat)
    (tagF : List Nat → List Nat → List Nat → List Nat)
    (key iv ct' tag0 : List Nat)
    (hkey : key.length = 32) (hiv : iv.length = 12)
    (hlen : tag0.length = 16) (htagF : (tagF key iv ct').length = 16)
    (hne : tag0 ≠ tagF key iv ct') :
    decryptFile ks tagF (packEnvelope iv tag0 ct') key = .error .authFailure := by
  unfold decryptFile
  rw [packEnvelope_take12 _ _ _ hiv, packEnvelope_tagSlice _ _ _ hiv hlen,
    packEnvelope_drop28 _ _ _ hiv hlen]
  exact gcmDecrypt_wrong_tag ks tagF key iv ct' tag0 hkey
    (by rw [hiv]; exact Nat.succ_ne_zero _) hlen htagF hne

lemma decryptSymmetricKey_tag_tamper (ks : List Nat → List Nat → Nat → Nat)
    (tagF : List Nat → List Nat → List Nat → List Nat)
    (keccak : List Nat → List Nat)
    (passphrase iv ek tag' : List Nat)
    (hkek : (keccak passphrase).length = 32) (hiv : iv.length = 12)
    (hlen : tag'.length = 16)
    (htagF : (tagF (keccak passphrase) iv ek).length = 16)
    (hne : tag' ≠ tagF (keccak passphrase) iv ek) :
    decryptSymmetricKey ks tagF keccak (packEnvelope iv tag' ek) passphrase
      = .error .authFailure := by
  unfold decryptSymmetricKey deriveKEK
  rw [packEnvelope_take12 _ _ _ hiv, packEnvelope_tagSlice _ _ _ hiv hlen,
    packEnvelope_drop28 _ _ _ hiv hlen]
  exact gcmDecrypt_wrong_tag ks tagF _ iv ek tag' hkek
    (by rw [hiv]; exact Nat.succ_ne_zero _) hlen htagF hne

lemma claimPipeline_some_active_match (ks : List Nat → List Nat → Nat → Nat)
    (tagF : List Nat → List Nat → List Nat → List Nat)
    (keccak : List Nat → List Nat) (r : DropRecord) (S : List Nat)
    (hact : r.isActive = true)
    (hmatch : r.passphraseHash = passphraseCommitment keccak S)
    (hne : r.encryptedSymKey.length ≠ 0) :
    claimPipeline ks tagF keccak (some r) S =
      match decryptSymmetricKey ks tagF keccak r.encryptedSymKey S with
      | .error _ => .error .CLAIM_ERROR
      | .ok symmetricKey =>
        match decryptFile ks tagF r.storedFile symmetricKey with
        | .error _ => .error .CLAIM_ERROR
        | .ok plaintext => .ok plaintext := by
  simp [claimPipeline, claimDropLedger, hact, hmatch, hne]

/-- Claim C3 counterexample: there is no domain separation at all — on a
concrete passphrase the stored commitment is byte-for-byte the lowercase
hex encoding of the KEK, both being the same keccak-256 digest of the raw
passphrase bytes. -/
theorem commitment_is_hex_of_kek_concrete :
    passphraseCommitment keccakDemo [5] = bytesToHex (deriveKEK keccakDemo [5]) := rfl

/-- Claim C3 amended: the commitment and the KEK are derived by the
identical keccak-256 call on the raw passphrase bytes with no domain
separation: for every hash and passphrase the public commitment is exactly
the hex encoding of the KEK bytes, and hex-decoding the commitment
recovers the KEK. -/
theorem commitment_reveals_kek (keccak : List Nat → List Nat) (S : List Nat)
    (hb : ∀ x ∈ keccak S, x < 256) :
    passphraseCommitment keccak S = bytesToHex (deriveKEK keccak S) ∧
    hexToBytes (passphraseCommitment keccak S) = deriveKEK keccak S :=
  ⟨rfl, hexToBytes_bytesToHex _ hb⟩

/-- Witness for the amended claim C3 on a concrete passphrase. -/
theorem commitment_reveals_kek_witness :
    passphraseCommitment keccakDemo [9] = bytesToHex (deriveKEK keccakDemo [9]) ∧
    hexToBytes (passphraseCommitment keccakDemo [9]) = deriveKEK keccakDemo [9] :=
  commitment_reveals_kek keccakDemo [9] (by decide)

/-- Claim C4 amended: unpacking never fails (the `subarray` slices clamp),
so an input shorter than 28 bytes is not rejected with any
MalformedEnvelope error; instead the subsequent GCM decryption of the
clamped slices throws, and the route surfaces the generic CLAIM_ERROR
(or KEY_NOT_AVAILABLE when the stored key envelope is empty, rejected by
the explicit emptiness check before decryption).  Zero-length ciphertext
itself is accepted, as the round-trip of a 28-byte envelope shows. -/
theorem short_key_envelope_claim_error (ks : List Nat → List Nat → Nat → Nat)
    (tagF : List Nat → List Nat → List Nat → List Nat)
    (keccak : List Nat → List Nat)
    (storedFile keyEnv S : List Nat)
    (hshort : keyEnv.length < 28) :
    claimPipeline ks tagF keccak
        (some { storedFile := storedFile, encryptedSymKey := keyEnv,
                passphraseHash := passphraseCommitment keccak S, isActive := true }) S
      = .error (if keyEnv.length = 0 then .KEY_NOT_AVAILABLE else .CLAIM_ERROR) := by
  by_cases h0 : keyEnv.length = 0
  · rw [if_pos h0]
    simp [claimPipeline, claimDropLedger, h0]
  · rw [if_neg h0]
    rw [claimPipeline_some_active_match ks tagF keccak _ S rfl rfl h0]
    have hek : keyEnv.drop 28 = [] := List.drop_eq_nil_of_le (by omega)
    show (match gcmDecrypt ks tagF (deriveKEK keccak S) (keyEnv.take 12) (keyEnv.drop 28)
        ((keyEnv.drop 12).take 16) with
      | .error _ => Except.error ClaimCode.CLAIM_ERROR
      | .ok symmetricKey =>
        match decryptFile ks tagF storedFile symmetricKey with
        | .error _ => Except.error ClaimCode.CLAIM_ERROR
        | .ok plaintext => Except.ok plaintext) = Except.error ClaimCode.CLAIM_ERROR
    rcases hres : gcmDecrypt ks tagF (deriveKEK keccak S) (keyEnv.take 12) (keyEnv.drop 28)
        ((keyEnv.drop 12).take 16) with e | out
    · rfl
    · have hout : out = [] := by
        have := gcmDecrypt_ok_elim ks tagF _ _ _ _ _ hres
        rw [hek] at this
        simpa [ctrXor] using this
      show (match decryptFile ks tagF storedFile out with
        | .error _ => Except.error ClaimCode.CLAIM_ERROR
        | .ok plaintext => Except.ok plaintext) = Except.error ClaimCode.CLAIM_ERROR
      have hfile : decryptFile ks tagF storedFile out = .error .invalidKeyLength := by
        unfold decryptFile gcmDecrypt
        rw [if_pos (by rw [hout]; exact fun h => absurd h.symm (by norm_num))]
      rw [hfile]

/-- Witness for the amended claim C4 on a concrete 20-byte key envelope. -/
theorem short_key_envelope_claim_error_witness :
    claimPipeline ksDemo tagDemo keccakDemo
        (some { storedFile := [1, 2], encryptedSymKey := List.replicate 20 1,
                passphraseHash := passphraseCommitment keccakDemo [3], isActive := true }) [3]
      = .error (if (List.replicate 20 1 : List Nat).length = 0
          then .KEY_NOT_AVAILABLE else .CLAIM_ERROR) :=
  short_key_envelope_claim_error ksDemo tagDemo keccakDemo [1, 2]
    (List.replicate 20 1) [3] (by decide)

/-- Claim C5 counterexample: wrong passphrase and tampered key envelope are
NOT reported identically.  On a concrete drop, supplying a wrong passphrase
is answered with INVALID_PASSPHRASE (HTTP 401, from the ledger hash check),
while supplying the correct passphrase against a key envelope with one
flipped bit ends in the catch-all handler and is answered with the generic
CLAIM_ERROR (HTTP 500): the two failures are distinguishable. -/
theorem wrong_pass_vs_key_tamper_concrete :
    claimPipeline ksDemo tagDemo keccakDemo
        (some (createDrop ksDemo tagDemo keccakDemo (List.replicate 32 7)
          (List.replicate 12 1) (List.replicate 12 2) [104, 105] [113])) [7]
      = .error .INVALID_PASSPHRASE ∧
    claimPipeline ksDemo tagDemo keccakDemo
        (some { createDrop ksDemo tagDemo keccakDemo (List.replicate 32 7)
            (List.replicate 12 1) (List.replicate 12 2) [104, 105] [113] with
          encryptedSymKey :=
            flipBit ((createDrop ksDemo tagDemo keccakDemo (List.replicate 32 7)
              (List.replicate 12 1) (List.replicate 12 2) [104, 105] [113]).encryptedSymKey)
              12 0 }) [113]
      = .error .CLAIM_ERROR ∧
    ClaimCode.INVALID_PASSPHRASE ≠ ClaimCode.CLAIM_ERROR := by
  refine ⟨by rfl, by rfl, by decide⟩

/-- Claim C5 amended: the two failure causes the spec requires to be
indistinguishable are in fact reported through different channels: a
passphrase whose hash differs from the stored commitment is rejected by
the ledger check and surfaces as INVALID_PASSPHRASE, while a bit flipped
in the tag region of the key envelope passes the hash check, makes the
key unwrap throw, and surfaces as the distinct generic CLAIM_ERROR. -/
theorem wrong_pass_vs_key_tamper (ks : List Nat → List Nat → Nat → Nat)
    (tagF : List Nat → List Nat → List Nat → List Nat)
    (keccak : List Nat → List Nat)
    (key iv1 iv2 P S S2 : List Nat) (i k : Nat)
    (hkek : (keccak S).length = 32) (hiv2 : iv2.length = 12)
    (htag : ∀ a b c, (tagF a b c).length = 16)
    (hne : bytesToHex (keccak S) ≠ bytesToHex (keccak S2))
    (h1 : 12 ≤ i) (h2 : i < 28) :
    claimPipeline ks tagF keccak (some (createDrop ks tagF keccak key iv1 iv2 P S)) S2
      = .error .INVALID_PASSPHRASE ∧
    claimPipeline ks tagF keccak
        (some { createDrop ks tagF keccak key iv1 iv2 P S with
          encryptedSymKey :=
            flipBit ((createDrop ks tagF keccak key iv1 iv2 P S).encryptedSymKey) i k }) S
      = .error .CLAIM_ERROR ∧
    ClaimCode.INVALID_PASSPHRASE ≠ ClaimCode.CLAIM_ERROR := by
  refine ⟨?_, ?_, by decide⟩
  · have hc : passphraseCommitment keccak S ≠ passphraseCommitment keccak S2 := hne
    simp [claimPipeline, claimDropLedger, createDrop, hc]
  · have hflip : flipBit ((createDrop ks tagF keccak key iv1 iv2 P S).encryptedSymKey) i k
        = packEnvelope iv2
            (flipBit (tagF (deriveKEK keccak S) iv2
              (ctrXor ks (deriveKEK keccak S) iv2 key)) (i - 12) k)
            (ctrXor ks (deriveKEK keccak S) iv2 key) := by
      show flipBit (encryptSymmetricKey ks tagF keccak key S iv2) i k = _
      unfold encryptSymmetricKey
      exact flipBit_packEnvelope_tag _ _ _ i k hiv2 (htag _ _ _) h1 h2
    have hdec : decryptSymmetricKey ks tagF keccak
        (flipBit ((createDrop ks tagF keccak key iv1 iv2 P S).encryptedSymKey) i k) S
        = .error .authFailure := by
      rw [hflip]
      refine decryptSymmetricKey_tag_tamper ks tagF keccak S iv2 _ _ hkek hiv2 ?_ (htag _ _ _) ?_
      · rw [flipBit_length]; exact htag _ _ _
      · exact flipBit_ne _ _ k (by rw [htag]; omega)
    rw [claimPipeline_some_active_match ks tagF keccak _ S rfl rfl
      (by rw [flipBit_length]
          show (encryptSymmetricKey ks tagF keccak key S iv2).length ≠ 0
          exact encryptSymmetricKey_ne_nil ks tagF keccak key S iv2 hiv2)]
    show (match decryptSymmetricKey ks tagF keccak
        (flipBit ((createDrop ks tagF keccak key iv1 iv2 P S).encryptedSymKey) i k) S with
      | .error _ => Except.error ClaimCode.CLAIM_ERROR
      | .ok symmetricKey =>
        match decryptFile ks tagF
            ((createDrop ks tagF keccak key iv1 iv2 P S).storedFile) symmetricKey with
        | .error _ => Except.error ClaimCode.CLAIM_ERROR
        | .ok plaintext => Except.ok plaintext) = Except.error ClaimCode.CLAIM_ERROR
    rw [hdec]

/-- Witness for the amended claim C5 at a concrete drop and bit position. -/
theorem wrong_pass_vs_key_tamper_witness :
    claimPipeline ksDemo tagDemo keccakDemo
        (some (createDrop ksDemo tagDemo keccakDemo (List.replicate 32 3)
          (List.replicate 12 4) (List.replicate 12 5) [9] [20])) [21]
      = .error .INVALID_PASSPHRASE ∧
    claimPipeline ksDemo tagDemo keccakDemo
        (some { createDrop ksDemo tagDemo keccakDemo (List.replicate 32 3)
            (List.replicate 12 4) (List.replicate 12 5) [9] [20] with
          encryptedSymKey :=
            flipBit ((createDrop ksDemo tagDemo keccakDemo (List.replicate 32 3)
              (List.replicate 12 4) (List.replicate 12 5) [9] [20]).encryptedSymKey) 14 1 }) [20]
      = .error .CLAIM_ERROR ∧
    ClaimCode.INVALID_PASSPHRASE ≠ ClaimCode.CLAIM_ERROR :=
  wrong_pass_vs_key_tamper ksDemo tagDemo keccakDemo (List.replicate 32 3)
    (List.replicate 12 4) (List.replicate 12 5) [9] [20] [21] 14 1
    (by decide) (by decide) tagDemo_length (by decide) (by decide) (by decide)

/-- Claim C6 counterexample: on a concrete drop with the correct
passphrase, flipping one bit in the tag region of the file envelope ends
in the generic catch-all CLAIM_ERROR — the very same error produced by a
completely different failure, a tampered key envelope.  There is no
dedicated CorruptedPayload failure class: payload corruption shares its
reported error with the key-unwrap failure that the spec requires to be
reported as InvalidPassphrase. -/
theorem file_tamper_error_not_dedicated :
    claimPipeline ksDemo tagDemo keccakDemo
        (some { createDrop ksDemo tagDemo keccakDemo (List.replicate 32 7)
            (List.replicate 12 1) (List.replicate 12 2) [104, 105] [113] with
          storedFile :=
            flipBit ((createDrop ksDemo tagDemo keccakDemo (List.replicate 32 7)
              (List.replicate 12 1) (List.replicate 12 2) [104, 105] [113]).storedFile)
              13 0 }) [113]
      = .error .CLAIM_ERROR ∧
    claimPipeline ksDemo tagDemo keccakDemo
        (some { createDrop ksDemo tagDemo keccakDemo (List.replicate 32 7)
            (List.replicate 12 1) (List.replicate 12 2) [104, 105] [113] with
          encryptedSymKey :=
            flipBit ((createDrop ksDemo tagDemo keccakDemo (List.replicate 32 7)
              (List.replicate 12 1) (List.replicate 12 2) [104, 105] [113]).encryptedSymKey)
              13 0 }) [113]
      = .error .CLAIM_ERROR := by
  refine ⟨by rfl, by rfl⟩

/-- Claim C6 amended: with the correct passphrase, a single-bit flip in
the tag region of the file envelope (or in the ciphertext region, whenever
the AEAD tag of the altered ciphertext differs from the stored tag, which
is what the authenticated cipher guarantees up to tag collisions) makes
opening fail; no altered plaintext is ever returned, but the failure is
surfaced as the generic CLAIM_ERROR of the catch-all handler — distinct
from INVALID_PASSPHRASE, yet not a dedicated CorruptedPayload class. -/
theorem file_tamper_rejected (ks : List Nat → List Nat → Nat → Nat)
    (tagF : List Nat → List Nat → List Nat → List Nat)
    (keccak : List Nat → List Nat)
    (key iv1 iv2 P S : List Nat) (i k : Nat)
    (hkey : key.length = 32) (hiv1 : iv1.length = 12) (hiv2 : iv2.length = 12)
    (hkek : (keccak S).length = 32)
    (htag : ∀ a b c, (tagF a b c).length = 16)
    (h1 : 12 ≤ i)
    (hct : 28 ≤ i → tagF key iv1 (flipBit (ctrXor ks key iv1 P) (i - 28) k)
        ≠ tagF key iv1 (ctrXor ks key iv1 P)) :
    claimPipeline ks tagF keccak
        (some { createDrop ks tagF keccak key iv1 iv2 P S with
          storedFile :=
            flipBit ((createDrop ks tagF keccak key iv1 iv2 P S).storedFile) i k }) S
      = .error .CLAIM_ERROR := by
  have hdec := decryptSymmetricKey_roundtrip ks tagF keccak key S iv2 hkek hiv2 htag
  have hfile : decryptFile ks tagF
      (flipBit ((createDrop ks tagF keccak key iv1 iv2 P S).storedFile) i k) key
      = .error .authFailure := by
    show decryptFile ks tagF (flipBit (encryptedFileBytes ks tagF key iv1 P) i k) key
        = .error .authFailure
    unfold encryptedFileBytes
    rcases Nat.lt_or_ge i 28 with hlt | hge
    · rw [flipBit_packEnvelope_tag _ _ _ i k hiv1 (htag _ _ _) h1 hlt]
      refine decryptFile_tag_tamper ks tagF key iv1 _ _ hkey hiv1 ?_ (htag _ _ _) ?_
      · rw [flipBit_length]; exact htag _ _ _
      · exact flipBit_ne _ _ k (by rw [htag]; omega)
    · rw [flipBit_packEnvelope_ct _ _ _ i k hiv1 (htag _ _ _) hge]
      exact decryptFile_ct_tamper ks tagF key iv1 _ _ hkey hiv1
        (htag _ _ _) (htag _ _ _) (hct hge).symm
  rw [claimPipeline_some_active_match ks tagF keccak _ S rfl rfl
    (encryptSymmetricKey_ne_nil ks tagF keccak key S iv2 hiv2)]
  show (match decryptSymmetricKey ks tagF keccak
      (encryptSymmetricKey ks tagF keccak key S iv2) S with
    | .error _ => Except.error ClaimCode.CLAIM_ERROR
    | .ok symmetricKey =>
      match decryptFile ks tagF
          (flipBit ((createDrop ks tagF keccak key iv1 iv2 P S).storedFile) i k)
          symmetricKey with
      | .error _ => Except.error ClaimCode.CLAIM_ERROR
      | .ok plaintext => Except.ok plaintext) = Except.error ClaimCode.CLAIM_ERROR
  rw [hdec]
  show (match decryptFile ks tagF
      (flipBit ((createDrop ks tagF keccak key iv1 iv2 P S).storedFile) i k) key with
    | .error _ => Except.error ClaimCode.CLAIM_ERROR
    | .ok plaintext => Except.ok plaintext) = Except.error ClaimCode.CLAIM_ERROR
  rw [hfile]

/-- Witness for the amended claim C6: a flip in the tag region of a
concrete drop's file envelope. -/
theorem file_tamper_rejected_witness :
    claimPipeline ksDemo tagDemo keccakDemo
        (some { createDrop ksDemo tagDemo keccakDemo (List.replicate 32 6)
            (List.replicate 12 8) (List.replicate 12 9) [1, 2, 3] [50] with
          storedFile :=
            flipBit ((createDrop ksDemo tagDemo keccakDemo (List.replicate 32 6)
              (List.replicate 12 8) (List.replicate 12 9) [1, 2, 3] [50]).storedFile)
              15 2 }) [50]
      = .error .CLAIM_ERROR :=
  file_tamper_rejected ksDemo tagDemo keccakDemo (List.replicate 32 6)
    (List.replicate 12 8) (List.replicate 12 9) [1, 2, 3] [50] 15 2
    (by decide) (by decide) (by decide) (by decide) tagDemo_length (by decide)
    (fun h => absurd h (by decide))

/-! ### Chunked base64 codec (`src/lib/encryption.ts` lines 114-142)

`arrayToBase64` walks the array in 0x8000-byte chunks, builds a binary
string whose character codes are the bytes, and feeds it to `btoa`;
`base64ToArray` applies `atob` and reads the character codes back.  The
browser primitives `btoa`/`atob` are external; they are modelled as the
standard base64 codec over the latin-1 character codes of the string
(`encodeGroups`/`decodeGroups`, three bytes to four characters with `=`
padding).  The outer loop is modelled with an explicit fuel argument
(one iteration consumes at least one byte, so `length + 1` fuel always
suffices). -/

def b64Alphabet : List Char :=
  (List.range 64).map (fun n =>
    if n < 26 then Char.ofNat (65 + n)
    else if n < 52 then Char.ofNat (71 + n)
    else if n < 62 then Char.ofNat (n - 4)
    else if n = 62 then Char.ofNat 43
    else Char.ofNat 47)

def b64Char (n : Nat) : Char := b64Alphabet.getD n 'A'

def b64Val (c : Char) : Nat := b64Alphabet.indexOf c

def encodeGroups : List Nat → List Char
  | [] => []
  | [b1] => [b64Char (b1 / 4), b64Char (b1 % 4 * 16), '=', '=']
  | [b1, b2] =>
    [b64Char (b1 / 4), b64Char (b1 % 4 * 16 + b2 / 16), b64Char (b2 % 16 * 4), '=']
  | b1 :: b2 :: b3 :: rest =>
    b64Char (b1 / 4) :: b64Char (b1 % 4 * 16 + b2 / 16) ::
      b64Char (b2 % 16 * 4 + b3 / 64) :: b64Char (b3 % 64) :: encodeGroups rest

def decodeGroups : List Char → List Nat
  | c1 :: c2 :: c3 :: c4 :: rest =>
    if c3 = '=' then [b64Val c1 * 4 + b64Val c2 / 16]
    else if c4 = '=' then
      [b64Val c1 * 4 + b64Val c2 / 16, b64Val c2 % 16 * 16 + b64Val c3 / 4]
    else
      (b64Val c1 * 4 + b64Val c2 / 16) :: (b64Val c2 % 16 * 16 + b64Val c3 / 4) ::
        (b64Val c3 % 4 * 64 + b64Val c4) :: decodeGroups rest
  | _ => []

set_option maxRecDepth 10000 in
lemma b64Val_b64Char : ∀ v : Nat, v < 64 → b64Val (b64Char v) = v := by
  decide

set_option maxRecDepth 10000 in
lemma b64Char_ne_eq : ∀ v : Nat, v < 64 → b64Char v ≠ '=' := by
  decide

lemma decode_encode : ∀ a : List Nat, (∀ x ∈ a, x < 256) →
    decodeGroups (encodeGroups a) = a
  | [], _ => rfl
  | [b1], h => by
    have hb1 : b1 < 256 := h b1 (by simp)
    show decodeGroups [b64Char (b1 / 4), b64Char (b1 % 4 * 16), '=', '='] = [b1]
    show [b64Val (b64Char (b1 / 4)) * 4 + b64Val (b64Char (b1 % 4 * 16)) / 16] = [b1]
    rw [b64Val_b64Char _ (by omega), b64Val_b64Char _ (by omega)]
    simp only [List.cons.injEq, and_true]
    omega
  | [b1, b2], h => by
    have hb1 : b1 < 256 := h b1 (by simp)
    have hb2 : b2 < 256 := h b2 (by simp)
    show decodeGroups [b64Char (b1 / 4), b64Char (b1 % 4 * 16 + b2 / 16),
      b64Char (b2 % 16 * 4), '='] = [b1, b2]
    unfold decodeGroups
    rw [if_neg (b64Char_ne_eq _ (by omega)), if_pos rfl]
    rw [b64Val_b64Char _ (by omega), b64Val_b64Char _ (by omega),
      b64Val_b64Char _ (by omega)]
    simp only [List.cons.injEq, and_true]
    omega
  | b1 :: b2 :: b3 :: rest, h => by
    have hb1 : b1 < 256 := h b1 (by simp)
    have hb2 : b2 < 256 := h b2 (by simp)
    have hb3 : b3 < 256 := h b3 (by simp)
    have hrest : ∀ x ∈ rest, x < 256 := fun x hx => h x (by simp [hx])
    show decodeGroups (b64Char (b1 / 4) :: b64Char (b1 % 4 * 16 + b2 / 16) ::
      b64Char (b2 % 16 * 4 + b3 / 64) :: b64Char (b3 % 64) :: encodeGroups rest)
      = b1 :: b2 :: b3 :: rest
    unfold decodeGroups
    rw [if_neg (b64Char_ne_eq _ (by omega)), if_neg (b64Char_ne_eq _ (by omega))]
    rw [b64Val_b64Char _ (by omega), b64Val_b64Char _ (by omega),
      b64Val_b64Char _ (by omega), b64Val_b64Char _ (by omega)]
    rw [decode_encode rest hrest]
    simp only [List.cons.injEq, and_true]
    omega

def chunkToString (chunk : List Nat) : String := String.mk (chunk.map Char.ofNat)

def binaryChunks : Nat → List Nat → String
  | 0, _ => ""
  | fuel + 1, a =>
    if a.isEmpty then ""
    else chunkToString (a.take 0x8000) ++ binaryChunks fuel (a.drop 0x8000)

lemma Char_toNat_ofNat (b : Nat) (h : b < 256) : (Char.ofNat b).toNat = b := by
  have hv : b.isValidChar := Or.inl (by omega)
  simp [Char.ofNat, hv, Char.toNat, Char.ofNatAux, UInt32.toNat,
    BitVec.toNat_ofNatLt]

lemma binaryChunks_data :
    ∀ fuel a, a.length ≤ fuel → (binaryChunks fuel a).data = a.map Char.ofNat := by
  intro fuel
  induction fuel with
  | zero =>
    intro a h
    have : a = [] := List.length_eq_zero.mp (Nat.le_zero.mp h)
    subst this
    rfl
  | succ n ih =>
    intro a h
    by_cases he : a.isEmpty = true
    · have : a = [] := List.isEmpty_iff.mp he
      subst this
      rfl
    · show (if a.isEmpty then ""
        else chunkToString (a.take 0x8000) ++ binaryChunks n (a.drop 0x8000)).data
        = a.map Char.ofNat
      rw [if_neg he, String.data_append]
      have hd : (a.drop 0x8000).length ≤ n := by
        have h1 : a.length ≠ 0 :=
          fun h0 => he (by simp [List.isEmpty_iff, List.length_eq_zero.mp h0])
        rw [List.length_drop]
        omega
      rw [ih _ hd]
      show (a.take 0x8000).map Char.ofNat ++ (a.drop 0x8000).map Char.ofNat
        = a.map Char.ofNat
      rw [← List.map_append, List.take_append_drop]

lemma map_toNat_ofNat (a : List Nat) (h : ∀ x ∈ a, x < 256) :
    (a.map Char.ofNat).map Char.toNat = a := by
  induction a with
  | nil => rfl
  | cons b t ih =>
    simp only [List.map_cons]
    rw [Char_toNat_ofNat b (h b (by simp)), ih (fun x hx => h x (by simp [hx]))]

def btoaModel (s : String) : String := String.mk (encodeGroups (s.data.map Char.toNat))

def atobModel (s : String) : String := String.mk ((decodeGroups s.data).map Char.ofNat)

def arrayToBase64 (a : List Nat) : String := btoaModel (binaryChunks (a.length + 1) a)

def base64ToArray (s : String) : List Nat := (atobModel s).data.map Char.toNat

/-- Claim C10: decoding the base64 string produced by the chunked encoder
yields exactly the original byte array, for every array of bytes —
including the empty array and arrays larger than the 0x8000-byte chunk
size, which the statement covers for every length. -/
theorem base64_roundtrip (a : List Nat) (h : ∀ x ∈ a, x < 256) :
    base64ToArray (arrayToBase64 a) = a := by
  unfold base64ToArray arrayToBase64 atobModel btoaModel
  rw [binaryChunks_data _ a (by omega)]
  show ((decodeGroups (encodeGroups ((a.map Char.ofNat).map Char.toNat))).map
      Char.ofNat).map Char.toNat = a
  rw [map_toNat_ofNat a h, decode_encode a h, map_toNat_ofNat a h]

/-- Witness for claim C10 on a concrete four-byte array. -/
theorem base64_roundtrip_witness :
    base64ToArray (arrayToBase64 [0, 255, 7, 128]) = [0, 255, 7, 128] :=
  base64_roundtrip [0, 255, 7, 128] (by decide)

end QuantumDrop
